import Mathlib

/-!
Verification development for the CyberBRIEF repository.

The repository is a React/TypeScript client (`src/frontend/src`) talking to a
FastAPI backend.  The client stores (`reportStore.ts`, `researchStore.ts`,
`settingsStore.ts`), the API client (`api/client.ts`) and the home page flow
(`HomePage.tsx`) are embedded directly from the TypeScript source.  The
backend modules that the source tree does not contain (the IOC extractor and
the tiered research dispatcher) are modelled from the specification; their
doc comments say so explicitly.
-/

namespace CyberBrief

/-- Research tier enumeration (`types.ts`, `ResearchTier`). -/
inductive ResearchTier
  | FREE
  | STANDARD
  | DEEP
deriving DecidableEq, Repr

/-- IOC type enumeration (`types.ts`, `IOCType`). -/
inductive IOCType
  | ipv4
  | ipv6
  | domain
  | url
  | md5
  | sha1
  | sha256
  | cve
deriving DecidableEq, Repr

/-- IOC record (`types.ts`, `IOC`): type, literal value, optional context and
the list of contributing source identifiers. -/
structure IOC where
  ty : IOCType
  value : String
  context : Option String
  sources : List String
deriving DecidableEq, Repr

/-! ### IOC extraction (modelled from the spec)

The extractor itself is a backend module that is not under `src/` (the spec
§4.1 describes it and §8 gives a concrete example).  Everything in this
section is therefore modelled from the spec's words. -/

/-- Modelled from the spec: characters that may appear inside an indicator
token.  The backend IOC extractor is not under `src/`; §4.1 describes
regex matching over free text, which we model as classifying maximal runs
of indicator characters. -/
def isIndicatorChar (c : Char) : Bool :=
  c.isAlphanum || c = '.' || c = '-' || c = ':' || c = '/' || c = '_'

/-- Splits a character stream into maximal runs of indicator characters.
The second argument is the (reversed) run currently being read. -/
def tokenizeAux : List Char → List Char → List (List Char)
  | [], [] => []
  | [], acc => [acc.reverse]
  | c :: cs, acc =>
    if isIndicatorChar c then
      tokenizeAux cs (c :: acc)
    else if acc = [] then
      tokenizeAux cs []
    else
      acc.reverse :: tokenizeAux cs []

/-- Modelled from the spec: tokenization of the input text (§4.1: the input
is "a text string of arbitrary length"). -/
def tokenize (text : String) : List (List Char) :=
  tokenizeAux text.toList []

/-- Hexadecimal digit test (both cases), for the hash patterns of §4.1. -/
def isHexChar (c : Char) : Bool :=
  c.isDigit || ('a' ≤ c && c ≤ 'f') || ('A' ≤ c && c ≤ 'F')

/-- Modelled from the spec: "hash patterns (MD5/SHA1/SHA256) are
length-discriminated (32/40/64 hex characters)" (§4.1). -/
def classifyHash (t : List Char) : Option IOCType :=
  if t.all isHexChar then
    if t.length = 32 then some .md5
    else if t.length = 40 then some .sha1
    else if t.length = 64 then some .sha256
    else none
  else none

/-- Modelled from the spec: the CVE pattern `CVE-\d\x7b4\x7d-\d\x7b4,7\x7d`
(§4.1). -/
def isCVEToken (t : List Char) : Bool :=
  match t with
  | 'C' :: 'V' :: 'E' :: '-' :: rest =>
    let y := rest.takeWhile Char.isDigit
    let r := rest.dropWhile Char.isDigit
    decide (y.length = 4) &&
      (match r with
       | '-' :: n => n.all Char.isDigit && decide (4 ≤ n.length) && decide (n.length ≤ 7)
       | _ => false)
  | _ => false

/-- Splits a token at the dots, keeping empty parts. -/
def splitOnDot : List Char → List Char → List (List Char)
  | [], acc => [acc.reverse]
  | c :: cs, acc =>
    if c = '.' then acc.reverse :: splitOnDot cs []
    else splitOnDot cs (c :: acc)

/-- Decimal value of a digit run. -/
def digitsVal (t : List Char) : Nat :=
  t.foldl (fun a c => a * 10 + (c.toNat - '0'.toNat)) 0

/-- An IPv4 octet: one to three decimal digits with value at most 255. -/
def isOctet (t : List Char) : Bool :=
  !t.isEmpty && t.all Char.isDigit && decide (t.length ≤ 3) && decide (digitsVal t ≤ 255)

/-- Modelled from the spec: "IPv4 uses four dot-separated octets 0-255"
(§4.1). -/
def isIPv4Token (t : List Char) : Bool :=
  match splitOnDot t [] with
  | [a, b, c, d] => isOctet a && isOctet b && isOctet c && isOctet d
  | _ => false

/-- Characters allowed in a domain label. -/
def isLabelChar (c : Char) : Bool :=
  c.isAlphanum || c = '-'

/-- Modelled from the spec: domain matching (§4.1).  The spec only says that
domains are matched after IPs; we model a domain as two or more non-empty
dot-separated labels whose top-level label is alphabetic of length at
least two. -/
def isDomainToken (t : List Char) : Bool :=
  let parts := splitOnDot t []
  decide (2 ≤ parts.length) &&
    parts.all (fun p => !p.isEmpty && p.all isLabelChar) &&
    (match parts.getLast? with
     | some last => last.all Char.isAlpha && decide (2 ≤ last.length)
     | none => false)

/-- Modelled from the spec: "URL matching captures `http(s)://` prefixed
tokens" (§4.1). -/
def isURLToken (t : List Char) : Bool :=
  match t with
  | 'h' :: 't' :: 't' :: 'p' :: ':' :: '/' :: '/' :: _ => true
  | 'h' :: 't' :: 't' :: 'p' :: 's' :: ':' :: '/' :: '/' :: _ => true
  | _ => false

/-- Modelled from the spec: first match wins by the documented precedence
order — hashes (length-discriminated), then CVE, then IPv4, then domain
(matched only for values not already claimed as IPs), then URL (§4.1). -/
def classifyToken (t : List Char) : Option IOCType :=
  match classifyHash t with
  | some ty => some ty
  | none =>
    if isCVEToken t then some .cve
    else if isIPv4Token t then some .ipv4
    else if isDomainToken t then some .domain
    else if isURLToken t then some .url
    else none

/-- All raw classification hits `(type, value, sourceId)` contributed by one
source text. -/
def tokenHits (sid : String) (text : String) : List (IOCType × String × String) :=
  (tokenize text).filterMap fun t => (classifyToken t).map fun ty => (ty, String.mk t, sid)

/-- All raw classification hits of a list of `(sourceId, text)` sources, in
source order. -/
def extractHits : List (String × String) → List (IOCType × String × String)
  | [] => []
  | (sid, text) :: rest => tokenHits sid text ++ extractHits rest

/-- Appends a source identifier to a source list unless already present. -/
def mergeSource (sid : String) (ss : List String) : List String :=
  if sid ∈ ss then ss else ss ++ [sid]

/-- Folds one raw hit into the deduplicated record list: an existing record
with the same value absorbs the new source (keeping the type of the first
hit), otherwise a fresh record is appended. -/
def insertHit (acc : List IOC) (h : IOCType × String × String) : List IOC :=
  if acc.any (fun r => decide (r.value = h.2.1)) then
    acc.map fun r =>
      if r.value = h.2.1 then { r with sources := mergeSource h.2.2 r.sources } else r
  else
    acc ++ [⟨h.1, h.2.1, none, [h.2.2]⟩]

/-- Modelled from the spec: IOC extraction over a list of `(sourceId, text)`
sources — classify every token, then collapse duplicate values into a
single record with merged source list (§4.1). -/
def extractIOCs (sources : List (String × String)) : List IOC :=
  (extractHits sources).foldl insertHit []

/-! ### Report store (`stores/reportStore.ts`) -/

/-- Report record (`types.ts`, `Report`), restricted to its scalar fields;
the store logic only ever inspects `id`. -/
structure Report where
  id : String
  topic : String
  createdAt : String
  tier : ResearchTier
  tlp : String
  bluf : String
deriving DecidableEq, Repr

/-- State of the persisted report store (`reportStore.ts`). -/
structure ReportState where
  currentReport : Option Report
  history : List Report
deriving DecidableEq, Repr

namespace ReportStore

/-- `setCurrentReport` (`reportStore.ts` line 21). -/
def setCurrentReport (report : Option Report) (s : ReportState) : ReportState :=
  { s with currentReport := report }

/-- `addToHistory` (`reportStore.ts` lines 23-34): replace in place when the
id already exists, otherwise prepend and keep the 50 most recent. -/
def addToHistory (report : Report) (s : ReportState) : ReportState :=
  if s.history.any (fun r => decide (r.id = report.id)) then
    { s with history := s.history.map fun r => if r.id = report.id then report else r }
  else
    { s with history := (report :: s.history).take 50 }

/-- `removeFromHistory` (`reportStore.ts` lines 36-41): drop every entry with
the id and clear `currentReport` when it bears that id. -/
def removeFromHistory (id : String) (s : ReportState) : ReportState :=
  { s with
    history := s.history.filter fun r => decide (r.id ≠ id),
    currentReport :=
      match s.currentReport with
      | some c => if c.id = id then none else some c
      | none => none }

/-- `clearHistory` (`reportStore.ts` line 43). -/
def clearHistory (_s : ReportState) : ReportState :=
  { currentReport := none, history := [] }

/-- `getReportById` (`reportStore.ts` line 45). -/
def getReportById (id : String) (s : ReportState) : Option Report :=
  s.history.find? fun r => decide (r.id = id)

end ReportStore

/-! ### Research store (`stores/researchStore.ts`) -/

/-- `ResearchPhase` (`researchStore.ts` lines 4-11). -/
inductive ResearchPhase
  | idle
  | searching
  | synthesizing
  | extracting
  | generating
  | complete
  | error
deriving DecidableEq, Repr

/-- The phase's own name, used when `setPhase` is given no message
(`message ?? phase` in the TypeScript). -/
def phaseName : ResearchPhase → String
  | .idle => "idle"
  | .searching => "searching"
  | .synthesizing => "synthesizing"
  | .extracting => "extracting"
  | .generating => "generating"
  | .complete => "complete"
  | .error => "error"

/-- `RateLimitState` (`types.ts`).  `remaining`/`limit` are JS numbers used
only at integer values, embedded as `Int`. -/
structure RateLimitState where
  remaining : Int
  limit : Int
  resetAt : String
deriving DecidableEq, Repr

/-- Research bundle (`types.ts`, `ResearchBundle`), restricted to the fields
the embedded flows inspect. -/
structure ResearchBundle where
  topic : String
  tier : ResearchTier
  searchResults : List String
  synthesizedContent : String
  extractedIOCs : List IOC
deriving DecidableEq, Repr

/-- State of the research store (`researchStore.ts` lines 13-28).  A JS
`null`/`undefined` field is embedded as `none`. -/
structure ResearchState where
  phase : ResearchPhase
  progress : Int
  progressMessage : String
  error : Option String
  currentBundle : Option ResearchBundle
  rateLimit : RateLimitState
deriving DecidableEq, Repr

/-- JS truthiness of an optional string: absent and empty are falsy. -/
def strTruthy : Option String → Bool
  | none => false
  | some s => decide (s ≠ "")

/-- `INITIAL_RATE_LIMIT` (`researchStore.ts` lines 37-41), with the computed
reset timestamp as a parameter. -/
def INITIAL_RATE_LIMIT (resetAt : String) : RateLimitState :=
  { remaining := 10, limit := 10, resetAt }

namespace ResearchStore

/-- The progress value assigned per phase inside `setPhase`
(`researchStore.ts` lines 52-60). -/
def progressMap : ResearchPhase → Int
  | .idle => 0
  | .searching => 20
  | .synthesizing => 50
  | .extracting => 75
  | .generating => 90
  | .complete => 100
  | .error => 0

/-- `setPhase` (`researchStore.ts` lines 51-67).  The TypeScript assigns the
error field `undefined` when entering the error phase and `null`
otherwise; both embed as `none`. -/
def setPhase (phase : ResearchPhase) (message : Option String) (s : ResearchState) :
    ResearchState :=
  { s with
    phase
    progress := progressMap phase
    progressMessage := message.getD (phaseName phase)
    error := none }

/-- `setProgress` (`researchStore.ts` lines 69-73). -/
def setProgress (progress : Int) (message : Option String) (s : ResearchState) :
    ResearchState :=
  { s with progress, progressMessage := message.getD s.progressMessage }

/-- `setError` (`researchStore.ts` lines 75-79): a truthy error string moves
the phase to `error`, anything falsy back to `idle`. -/
def setError (error : Option String) (s : ResearchState) : ResearchState :=
  { s with error, phase := if strTruthy error then .error else .idle }

/-- `setCurrentBundle` (`researchStore.ts` line 81). -/
def setCurrentBundle (bundle : Option ResearchBundle) (s : ResearchState) : ResearchState :=
  { s with currentBundle := bundle }

/-- `decrementRateLimit` (`researchStore.ts` lines 83-89): clamped at zero by
`Math.max`. -/
def decrementRateLimit (s : ResearchState) : ResearchState :=
  { s with rateLimit := { s.rateLimit with remaining := max 0 (s.rateLimit.remaining - 1) } }

/-- `resetRateLimit` (`researchStore.ts` lines 91-97), with the fresh reset
timestamp as a parameter. -/
def resetRateLimit (resetAt : String) (s : ResearchState) : ResearchState :=
  { s with rateLimit := { INITIAL_RATE_LIMIT resetAt with resetAt } }

/-- `reset` (`researchStore.ts` lines 99-106): clears everything except the
rate-limit state. -/
def reset (s : ResearchState) : ResearchState :=
  { s with
    phase := .idle
    progress := 0
    progressMessage := ""
    error := none
    currentBundle := none }

end ResearchStore

/-! ### Settings store (`stores/settingsStore.ts`) and HomePage gating
(`pages/HomePage.tsx`) -/

/-- API key bundle (`types.ts`, `ApiKeys`); an absent key is `none`. -/
structure ApiKeys where
  perplexity : Option String := none
  openai : Option String := none
  anthropic : Option String := none
  gemini : Option String := none
  brave : Option String := none
deriving DecidableEq, Repr

/-- Key providers, the index type of `ApiKeys`. -/
inductive ApiProvider
  | perplexity
  | openai
  | anthropic
  | gemini
  | brave
deriving DecidableEq, Repr

/-- Field lookup on the key bundle. -/
def ApiKeys.get (keys : ApiKeys) : ApiProvider → Option String
  | .perplexity => keys.perplexity
  | .openai => keys.openai
  | .anthropic => keys.anthropic
  | .gemini => keys.gemini
  | .brave => keys.brave

/-- `hasApiKey` (`settingsStore.ts` lines 56-59): the key is a string of
positive length. -/
def hasApiKey (keys : ApiKeys) (provider : ApiProvider) : Bool :=
  match keys.get provider with
  | some k => decide (0 < k.length)
  | none => false

/-- The `selectedTier` initializer (`HomePage.tsx` lines 95-100): a saved
default of `DEEP` falls back to `STANDARD` when no Perplexity key is
configured (JS truthiness on `apiKeys.perplexity`). -/
def selectedTierInit (saved : ResearchTier) (keys : ApiKeys) : ResearchTier :=
  if saved = .DEEP ∧ strTruthy keys.perplexity = false then .STANDARD else saved

/-- Tiers of the `TIER_INFO` cards on the home page (`HomePage.tsx` lines
46-83): only `STANDARD` and `DEEP` are offered. -/
def TIER_INFO_tiers : List ResearchTier :=
  [.STANDARD, .DEEP]

/-- The tier cards actually rendered (`HomePage.tsx` line 407): the `DEEP`
card is filtered out unless a Perplexity key is configured. -/
def shownTierCards (keys : ApiKeys) : List ResearchTier :=
  TIER_INFO_tiers.filter fun t => decide (t ≠ .DEEP) || hasApiKey keys .perplexity

/-- `isLoading` (`HomePage.tsx` line 116). -/
def isLoading (s : ResearchState) : Bool :=
  decide (s.phase ≠ .idle) && decide (s.phase ≠ .complete) && decide (s.phase ≠ .error)

/-- `canSubmit` (`HomePage.tsx` lines 118-120): a non-blank topic and no
research in flight. -/
def canSubmit (topic : String) (s : ResearchState) : Bool :=
  decide (0 < topic.trim.length) && !isLoading s

/-- One network request issued by `handleResearch` (`HomePage.tsx` lines
124-147): the research call, then the report-generation call. -/
inductive ApiCallEvent
  | research (topic : String) (tier : ResearchTier)
  | generateReport
deriving DecidableEq, Repr

/-- The requests `handleResearch` issues, in order (`HomePage.tsx` lines
124-147).  `researchSucceeds` says whether the awaited research call
returns; when it throws, the handler jumps to the catch block and never
issues the report-generation call. -/
def handleResearchCalls (topic : String) (tier : ResearchTier) (s : ResearchState)
    (researchSucceeds : Bool) : List ApiCallEvent :=
  if canSubmit topic s then
    if researchSucceeds then
      [.research topic.trim tier, .generateReport]
    else
      [.research topic.trim tier]
  else []

/-- The research-store state after the fully successful `handleResearch`
path (`HomePage.tsx` lines 124-147), as the composition of the store
operations it invokes, in program order. -/
def handleResearchSuccess (tier : ResearchTier) (bundle : ResearchBundle)
    (s : ResearchState) : ResearchState :=
  let s1 := ResearchStore.reset s
  let s2 := ResearchStore.setPhase .searching (some "Searching for threat intelligence...") s1
  let s3 := ResearchStore.setProgress 10 (some "Initiating search queries...") s2
  let s4 := ResearchStore.setCurrentBundle (some bundle) s3
  let s5 := ResearchStore.setProgress 50 (some "Search complete. Synthesizing intelligence...") s4
  let s6 := ResearchStore.setPhase .generating (some "Generating intelligence report...") s5
  let s7 := ResearchStore.setProgress 60 (some "Structuring report sections...") s6
  let s8 := ResearchStore.setProgress 90 (some "Finalizing report...") s7
  let s9 := if tier = .FREE then ResearchStore.decrementRateLimit s8 else s8
  let s10 := ResearchStore.setPhase .complete (some "Report ready!") s9
  ResearchStore.setProgress 100 (some "Report generated successfully.") s10

/-! ### API client (`api/client.ts`) -/

/-- The body of a non-OK HTTP response, as the client sees it:
`none` when `response.json()` throws, otherwise the parsed body's
optional `detail` field. -/
def ResponseBody : Type := Option (Option String)

/-- The error message computed by `ApiClient.request` for a non-OK response
(`client.ts` lines 74-82): the JSON body's `detail` field when present
and truthy, otherwise the fallback `"HTTP <status>"`. -/
def requestErrorMessage (status : Nat) (body : Option (Option String)) : String :=
  let fallback := "HTTP " ++ toString status
  match body with
  | some (some d) => if d = "" then fallback else d
  | some none => fallback
  | none => fallback

/-- The API calls the client can make (`api/client.ts`). -/
inductive ClientCall
  | research
  | generateReport
  | lookupTechnique
  | generateNavigatorLayer
  | exportHtml
  | exportMarkdown
  | exportPdf
  | healthCheck
deriving DecidableEq, Repr

/-- The error message a failed client call throws.  Every method routes the
failure through the `detail`/fallback computation of `request`, with the
sole exception of `exportPdf` (`client.ts` line 152), which throws the
fixed string `"PDF export failed"`. -/
def callFailureMessage (c : ClientCall) (status : Nat) (body : Option (Option String)) :
    String :=
  match c with
  | .exportPdf => "PDF export failed"
  | _ => requestErrorMessage status body

/-- Outcome of one client call: each method performs exactly one `fetch` and
either returns the parsed value or throws; there is no retry loop
anywhere in `client.ts`.  The trace component records the fetches
issued. -/
def clientCallRun (c : ClientCall) (ok : Bool) (status : Nat)
    (body : Option (Option String)) : List ClientCall × Except String Unit :=
  ([c], if ok then .ok () else .error (callFailureMessage c status body))

/-! ### Tiered research dispatcher (modelled from the spec) -/

/-- The dispatcher's typed error taxonomy (spec §4.2 and §7). -/
inductive DispatchError
  | ValidationError
  | MissingCredential
  | ProviderTimeout
  | ProviderError
  | RateLimited
deriving DecidableEq, Repr

/-- An external provider call issued by the dispatcher. -/
structure ProviderCall where
  provider : String
  query : String
deriving DecidableEq, Repr

/-- Modelled from the spec: the backend tiered research dispatcher is not
under `src/` (only its frontend callers are).  Spec §4.2: `FREE` routes
to the keyword search provider plus the lightweight model, `STANDARD`
and `DEEP` to the Perplexity research API, and "selecting `DEEP` tier
without a configured credential yields a `MissingCredential` error
before any external call is attempted" (§8).  The returned pair is the
list of external calls issued and the research bundle or typed error;
the raw search results and synthesized narrative are parameters standing
for the providers' responses. -/
def dispatch (topic : String) (tier : ResearchTier) (keys : ApiKeys)
    (searchResults : List String) (synthesized : String) :
    List ProviderCall × Except DispatchError ResearchBundle :=
  let bundle : ResearchBundle :=
    { topic, tier, searchResults, synthesizedContent := synthesized,
      extractedIOCs := extractIOCs [("synthesis", synthesized)] }
  match tier with
  | .FREE => ([⟨"brave-search", topic⟩, ⟨"gemini-flash", topic⟩], .ok bundle)
  | .STANDARD =>
    if strTruthy keys.perplexity then ([⟨"perplexity-sonar", topic⟩], .ok bundle)
    else ([], .error .MissingCredential)
  | .DEEP =>
    if strTruthy keys.perplexity then ([⟨"perplexity-deep-research", topic⟩], .ok bundle)
    else ([], .error .MissingCredential)

/-! ### Helper lemmas -/

/-- Membership in a merged source list. -/
lemma mem_mergeSource {a sid : String} {ss : List String} :
    a ∈ mergeSource sid ss ↔ a ∈ ss ∨ a = sid := by
  unfold mergeSource
  split
  · next hmem =>
    constructor
    · exact Or.inl
    · rintro (ha | rfl)
      · exact ha
      · exact hmem
  · simp

/-- Invariant of the deduplicating fold of `extractIOCs`: after processing
the hit list `hits`, the accumulator has pairwise distinct values, each
record's source list is exactly the set of sources that contributed its
value, and every processed hit is represented. -/
def HitInv (hits : List (IOCType × String × String)) (acc : List IOC) : Prop :=
  (acc.map IOC.value).Nodup ∧
  (∀ r ∈ acc, ∀ sid, sid ∈ r.sources ↔ ∃ ty, (ty, r.value, sid) ∈ hits) ∧
  (∀ h ∈ hits, ∃ r ∈ acc, r.value = h.2.1)

lemma hitInv_insert {hits : List (IOCType × String × String)} {acc : List IOC}
    (h : IOCType × String × String) (inv : HitInv hits acc) :
    HitInv (hits ++ [h]) (insertHit acc h) := by
  obtain ⟨hnd, hsrc, hcov⟩ := inv
  obtain ⟨ty, v, sid⟩ := h
  unfold insertHit
  by_cases hex : acc.any (fun r => decide (r.value = v)) = true
  · have hex' : ∃ r ∈ acc, r.value = v := by
      simpa using hex
    rw [if_pos hex]
    have hval : ∀ r : IOC,
        (if r.value = v then { r with sources := mergeSource sid r.sources } else r).value
          = r.value := by
      intro r; split <;> rfl
    refine ⟨?_, ?_, ?_⟩
    · have : (acc.map fun r =>
          if r.value = v then { r with sources := mergeSource sid r.sources } else r).map
            IOC.value = acc.map IOC.value := by
        rw [List.map_map]
        exact List.map_congr_left fun r _ => hval r
      rw [this]; exact hnd
    · intro r' hr' sid'
      obtain ⟨r, hr, rfl⟩ := List.mem_map.mp hr'
      by_cases hv : r.value = v
      · rw [if_pos hv]
        simp only [mem_mergeSource]
        rw [hsrc r hr sid']
        constructor
        · rintro (⟨ty', hty'⟩ | rfl)
          · exact ⟨ty', by simpa [hv] using List.mem_append_left [(ty, v, sid)] hty'⟩
          · exact ⟨ty, by simp [hv]⟩
        · rintro ⟨ty', hty'⟩
          rcases List.mem_append.mp hty' with hmem | hmem
          · exact Or.inl ⟨ty', by simpa [hv] using hmem⟩
          · right
            have h3 : ty' = ty ∧ r.value = v ∧ sid' = sid := by simpa using hmem
            exact h3.2.2
      · rw [if_neg hv]
        rw [hsrc r hr sid']
        constructor
        · rintro ⟨ty', hty'⟩
          exact ⟨ty', List.mem_append_left _ hty'⟩
        · rintro ⟨ty', hty'⟩
          rcases List.mem_append.mp hty' with hmem | hmem
          · exact ⟨ty', hmem⟩
          · have h3 : ty' = ty ∧ r.value = v ∧ sid' = sid := by simpa using hmem
            exact absurd h3.2.1 hv
    · intro h' hh'
      rcases List.mem_append.mp hh' with hmem | hmem
      · obtain ⟨r, hr, hrv⟩ := hcov h' hmem
        exact ⟨_, List.mem_map_of_mem _ hr, by rw [hval r]; exact hrv⟩
      · obtain ⟨r, hr, hrv⟩ := hex'
        have : h' = (ty, v, sid) := by simpa using hmem
        subst this
        exact ⟨_, List.mem_map_of_mem _ hr, by rw [hval r]; exact hrv⟩
  · have hnone : ∀ r ∈ acc, r.value ≠ v := by
      intro r hr
      simpa using fun hv => hex (by simpa using ⟨r, hr, hv⟩)
    rw [if_neg hex]
    refine ⟨?_, ?_, ?_⟩
    · rw [List.map_append]
      simp only [List.map_cons, List.map_nil]
      rw [List.nodup_append]
      refine ⟨hnd, List.nodup_singleton v, ?_⟩
      intro a ha hb
      obtain ⟨r, hr, rfl⟩ := List.mem_map.mp ha
      exact hnone r hr (by simpa using hb)
    · intro r' hr' sid'
      rcases List.mem_append.mp hr' with hmem | hmem
      · rw [hsrc r' hmem sid']
        constructor
        · rintro ⟨ty', hty'⟩
          exact ⟨ty', List.mem_append_left _ hty'⟩
        · rintro ⟨ty', hty'⟩
          rcases List.mem_append.mp hty' with hm | hm
          · exact ⟨ty', hm⟩
          · have h3 : ty' = ty ∧ r'.value = v ∧ sid' = sid := by simpa using hm
            exact absurd h3.2.1 (hnone r' hmem)
      · have : r' = ⟨ty, v, none, [sid]⟩ := by simpa using hmem
        subst this
        simp only [List.mem_singleton]
        constructor
        · rintro rfl
          exact ⟨ty, List.mem_append_right _ (by simp)⟩
        · rintro ⟨ty', hty'⟩
          rcases List.mem_append.mp hty' with hm | hm
          · obtain ⟨r, hr, hrv⟩ := hcov _ hm
            exact absurd hrv (hnone r hr)
          · have h3 : ty' = ty ∧ sid' = sid := by simpa using hm
            exact h3.2
    · intro h' hh'
      rcases List.mem_append.mp hh' with hmem | hmem
      · obtain ⟨r, hr, hrv⟩ := hcov h' hmem
        exact ⟨r, List.mem_append_left _ hr, hrv⟩
      · have : h' = (ty, v, sid) := by simpa using hmem
        subst this
        exact ⟨⟨ty, v, none, [sid]⟩, List.mem_append_right _ (by simp), rfl⟩

lemma hitInv_foldl :
    ∀ (hits : List (IOCType × String × String)) (acc : List IOC)
      (processed : List (IOCType × String × String)),
      HitInv processed acc → HitInv (processed ++ hits) (hits.foldl insertHit acc)
  | [], _, _, inv => by simpa using inv
  | h :: hs, acc, processed, inv => by
    have step := hitInv_insert h inv
    have rest := hitInv_foldl hs (insertHit acc h) (processed ++ [h]) step
    simpa [List.append_assoc] using rest

lemma hitInv_extract (sources : List (String × String)) :
    HitInv (extractHits sources) (extractIOCs sources) := by
  have base : HitInv [] [] := by
    refine ⟨List.nodup_nil, ?_, ?_⟩ <;> intro h hmem <;> cases hmem
  simpa using hitInv_foldl (extractHits sources) [] [] base

/-- Replacing the entry bearing an id leaves the id sequence unchanged. -/
lemma map_id_replace (r : Report) (l : List Report) :
    (l.map fun x => if x.id = r.id then r else x).map Report.id = l.map Report.id := by
  rw [List.map_map]
  refine List.map_congr_left fun x _ => ?_
  by_cases h : x.id = r.id
  · simp [h]
  · simp [h]

/-- `find?` by id over the in-place replacement returns the replacement. -/
lemma find?_id_map_replace (r : Report) :
    ∀ l : List Report, (∃ x ∈ l, x.id = r.id) →
      (l.map fun x => if x.id = r.id then r else x).find?
          (fun x => decide (x.id = r.id)) = some r
  | [], hex => by simp at hex
  | y :: ys, hex => by
    by_cases hy : y.id = r.id
    · simp only [List.map_cons, if_pos hy]
      exact List.find?_cons_of_pos _ (by simp)
    · simp only [List.map_cons, if_neg hy]
      rw [List.find?_cons_of_neg _ (by simpa using hy)]
      apply find?_id_map_replace r ys
      rcases hex with ⟨x, hx, hxid⟩
      rcases List.mem_cons.mp hx with rfl | hx'
      · exact absurd hxid hy
      · exact ⟨x, hx', hxid⟩

/-- A string has positive length exactly when it is not the empty string. -/
lemma string_length_pos_iff (s : String) : 0 < s.length ↔ s ≠ "" := by
  rw [show s.length = s.data.length from rfl, List.length_pos]
  constructor
  · intro h hs
    apply h
    rw [hs]
  · intro h hd
    exact h (String.ext hd)

/-- `hasApiKey` agrees with JS truthiness of the stored key string. -/
lemma hasApiKey_eq_strTruthy (keys : ApiKeys) (p : ApiProvider) :
    hasApiKey keys p = strTruthy (keys.get p) := by
  unfold hasApiKey strTruthy
  cases keys.get p with
  | none => rfl
  | some k =>
    rw [decide_eq_decide]
    exact string_length_pos_iff k

/-! ### Claim theorems -/

/-- C1: for every list of input sources, IOC extraction reports each literal
value under at most one IOC type — two extracted records sharing a value
are one and the same record — and duplicate values collapse into a
single record whose source list is exactly the merge of the contributing
sources, i.e. the ids of the raw classification hits bearing that
value.  (First match wins by the documented precedence order, which is
the definition of `classifyToken`.) -/
theorem ioc_value_unique_and_sources_merged (sources : List (String × String)) :
    (∀ r₁ ∈ extractIOCs sources, ∀ r₂ ∈ extractIOCs sources,
        r₁.value = r₂.value → r₁ = r₂) ∧
    (∀ r ∈ extractIOCs sources, ∀ sid,
        sid ∈ r.sources ↔ ∃ ty, (ty, r.value, sid) ∈ extractHits sources) := by
  obtain ⟨hnd, hsrc, _⟩ := hitInv_extract sources
  exact ⟨fun r₁ h₁ r₂ h₂ hv => List.inj_on_of_nodup_map hnd h₁ h₂ hv, hsrc⟩

/-- Witness for C1 at a concrete input on which deduplication actually
fires: the value `8.8.8.8` occurs in both sources and yields one record
with merged source list. -/
theorem ioc_value_unique_and_sources_merged_witness :
    (⟨.ipv4, "8.8.8.8", none, ["a", "b"]⟩ : IOC) ∈
        extractIOCs [("a", "8.8.8.8"), ("b", "see 8.8.8.8")] ∧
    ("b" ∈ (⟨.ipv4, "8.8.8.8", none, ["a", "b"]⟩ : IOC).sources ↔
      ∃ ty, (ty, (⟨.ipv4, "8.8.8.8", none, ["a", "b"]⟩ : IOC).value, "b") ∈
        extractHits [("a", "8.8.8.8"), ("b", "see 8.8.8.8")]) :=
  ⟨by decide,
   (ioc_value_unique_and_sources_merged [("a", "8.8.8.8"), ("b", "see 8.8.8.8")]).2
     ⟨.ipv4, "8.8.8.8", none, ["a", "b"]⟩ (by decide) "b"⟩

/-- C3: the spec's worked example — extracting from the given text yields
exactly three records: ipv4 `8.8.8.8`, md5 of the given 32-hex string,
and cve `CVE-2023-1234`. -/
theorem ioc_extraction_spec_example :
    extractIOCs
        [("input",
          "C2 server at 8.8.8.8, hash 5d41402abc4b2a76b9719d911017c592, CVE-2023-1234")] =
      [⟨.ipv4, "8.8.8.8", none, ["input"]⟩,
       ⟨.md5, "5d41402abc4b2a76b9719d911017c592", none, ["input"]⟩,
       ⟨.cve, "CVE-2023-1234", none, ["input"]⟩] := by
  decide

/-- C7: report history round-trips — after `addToHistory r`, looking up
`r.id` returns `r`; after `removeFromHistory id`, looking up `id`
returns nothing; and no store operation mutates a surviving stored
report: every report in the history after an operation is either the
report just added (the only case that can replace an entry, and only
under the same id) or one of the previously stored reports unchanged. -/
theorem report_history_roundtrip (s : ReportState) (r : Report) (id : String)
    (o : Option Report) :
    ReportStore.getReportById r.id (ReportStore.addToHistory r s) = some r ∧
    ReportStore.getReportById id (ReportStore.removeFromHistory id s) = none ∧
    (∀ x ∈ (ReportStore.addToHistory r s).history, x = r ∨ x ∈ s.history) ∧
    (∀ x ∈ (ReportStore.addToHistory r s).history, x.id ≠ r.id → x ∈ s.history) ∧
    (∀ x ∈ (ReportStore.removeFromHistory id s).history, x ∈ s.history) ∧
    (ReportStore.setCurrentReport o s).history = s.history ∧
    (ReportStore.clearHistory s).history = [] := by
  have hadd : ∀ x ∈ (ReportStore.addToHistory r s).history, x = r ∨ x ∈ s.history := by
    intro x hx
    unfold ReportStore.addToHistory at hx
    by_cases hex : s.history.any (fun y => decide (y.id = r.id)) = true
    · rw [if_pos hex] at hx
      obtain ⟨y, hy, rfl⟩ := List.mem_map.mp hx
      by_cases h : y.id = r.id
      · rw [if_pos h]
        exact Or.inl rfl
      · rw [if_neg h]
        exact Or.inr hy
    · rw [if_neg hex] at hx
      have := (List.take_sublist 50 (r :: s.history)).subset hx
      rcases List.mem_cons.mp this with rfl | h
      · exact Or.inl rfl
      · exact Or.inr h
  refine ⟨?_, ?_, hadd, ?_, ?_, rfl, rfl⟩
  · unfold ReportStore.addToHistory ReportStore.getReportById
    by_cases hex : s.history.any (fun y => decide (y.id = r.id)) = true
    · rw [if_pos hex]
      exact find?_id_map_replace r s.history (by simpa using hex)
    · rw [if_neg hex]
      show ((r :: s.history).take (49 + 1)).find? (fun x => decide (x.id = r.id)) = some r
      rw [List.take_succ_cons]
      exact List.find?_cons_of_pos _ (by simp)
  · unfold ReportStore.removeFromHistory ReportStore.getReportById
    rw [List.find?_eq_none]
    intro x hx
    have hmem := (List.mem_filter.mp hx).2
    simp only [decide_eq_true_eq] at hmem ⊢
    exact hmem
  · intro x hx hxid
    rcases hadd x hx with rfl | h
    · exact absurd rfl hxid
    · exact h
  · intro x hx
    exact (List.mem_filter.mp hx).1

/-- Witness for C7 at a concrete store state. -/
theorem report_history_roundtrip_witness :
    ReportStore.getReportById "r1"
        (ReportStore.addToHistory ⟨"r1", "t", "c", .FREE, "TLP:GREEN", "b"⟩
          ⟨none, [⟨"r0", "t0", "c0", .FREE, "TLP:GREEN", "b0"⟩]⟩) =
      some ⟨"r1", "t", "c", .FREE, "TLP:GREEN", "b"⟩ :=
  (report_history_roundtrip ⟨none, [⟨"r0", "t0", "c0", .FREE, "TLP:GREEN", "b0"⟩]⟩
    ⟨"r1", "t", "c", .FREE, "TLP:GREEN", "b"⟩ "r0" none).1

/-- C8: the history never exceeds 50 reports — every store operation maps a
state with at most 50 history entries to a state with at most 50 — and
adding a report under a fresh id prepends it and truncates to the 50
most recent. -/
theorem report_history_capacity (s : ReportState) (r : Report) (id : String)
    (o : Option Report) (h : s.history.length ≤ 50) :
    (ReportStore.addToHistory r s).history.length ≤ 50 ∧
    (ReportStore.removeFromHistory id s).history.length ≤ 50 ∧
    (ReportStore.clearHistory s).history.length ≤ 50 ∧
    (ReportStore.setCurrentReport o s).history.length ≤ 50 ∧
    ((∀ x ∈ s.history, x.id ≠ r.id) →
      (ReportStore.addToHistory r s).history = (r :: s.history).take 50) := by
  refine ⟨?_, ?_, by simp [ReportStore.clearHistory], ?_, ?_⟩
  · unfold ReportStore.addToHistory
    split
    · simpa using h
    · simp [List.length_take]
  · exact le_trans (List.length_filter_le _ _) h
  · simpa [ReportStore.setCurrentReport] using h
  · intro hall
    unfold ReportStore.addToHistory
    rw [if_neg]
    simp only [List.any_eq_true, decide_eq_true_eq, not_exists, not_and]
    intro x hx
    exact hall x hx

/-- Witness for C8 at a concrete store state. -/
theorem report_history_capacity_witness :
    (ReportStore.addToHistory ⟨"r1", "t", "c", .FREE, "TLP:GREEN", "b"⟩
        ⟨none, []⟩).history.length ≤ 50 :=
  (report_history_capacity ⟨none, []⟩ ⟨"r1", "t", "c", .FREE, "TLP:GREEN", "b"⟩ "r0" none
    (by decide)).1

/-- C9: report ids in the history stay pairwise distinct under every store
operation; adding a report whose id is already present replaces in
place, leaving the id sequence (hence the length) unchanged; and
`removeFromHistory id` clears `currentReport` exactly when the current
report bears that id. -/
theorem report_history_ids_nodup (s : ReportState) (r : Report) (id : String)
    (hnd : (s.history.map Report.id).Nodup) :
    ((ReportStore.addToHistory r s).history.map Report.id).Nodup ∧
    ((ReportStore.removeFromHistory id s).history.map Report.id).Nodup ∧
    ((ReportStore.clearHistory s).history.map Report.id).Nodup ∧
    (∀ o, ((ReportStore.setCurrentReport o s).history.map Report.id).Nodup) ∧
    ((∃ x ∈ s.history, x.id = r.id) →
      (ReportStore.addToHistory r s).history.map Report.id = s.history.map Report.id ∧
      (ReportStore.addToHistory r s).history.length = s.history.length) ∧
    (∀ c, s.currentReport = some c →
      ((ReportStore.removeFromHistory id s).currentReport = none ↔ c.id = id)) := by
  refine ⟨?_, ?_, by simp [ReportStore.clearHistory], fun o => by simpa [ReportStore.setCurrentReport] using hnd, ?_, ?_⟩
  · unfold ReportStore.addToHistory
    by_cases hex : s.history.any (fun y => decide (y.id = r.id)) = true
    · rw [if_pos hex]
      show ((s.history.map fun x => if x.id = r.id then r else x).map Report.id).Nodup
      rw [map_id_replace]
      exact hnd
    · rw [if_neg hex]
      show (((r :: s.history).take 50).map Report.id).Nodup
      have hnotin : r.id ∉ s.history.map Report.id := by
        simp only [List.any_eq_true, decide_eq_true_eq, not_exists, not_and] at hex
        simp only [List.mem_map, not_exists, not_and]
        intro x hx hxid
        exact hex x hx hxid
      have hsub : List.Sublist (((r :: s.history).take 50).map Report.id)
          ((r :: s.history).map Report.id) :=
        List.Sublist.map Report.id (List.take_sublist 50 _)
      refine hsub.nodup ?_
      rw [List.map_cons]
      exact List.Nodup.cons hnotin hnd
  · have hsub : List.Sublist ((ReportStore.removeFromHistory id s).history.map Report.id)
        (s.history.map Report.id) :=
      List.Sublist.map Report.id (List.filter_sublist _)
    exact hsub.nodup hnd
  · intro hex
    unfold ReportStore.addToHistory
    rw [if_pos (by simpa using hex)]
    refine ⟨map_id_replace r s.history, by simp⟩
  · intro c hc
    unfold ReportStore.removeFromHistory
    simp only [hc]
    by_cases h : c.id = id
    · simp [h]
    · simp [h]

/-- Witness for C9 at a concrete store state with duplicate id for the
in-place-replacement conjunct. -/
theorem report_history_ids_nodup_witness :
    (((ReportStore.addToHistory ⟨"r0", "t", "c", .FREE, "TLP:GREEN", "b"⟩
        ⟨none, [⟨"r0", "t0", "c0", .FREE, "TLP:GREEN", "b0"⟩]⟩).history.map
          Report.id).Nodup) ∧
    ((⟨none, [⟨"r0", "t0", "c0", .FREE, "TLP:GREEN", "b0"⟩]⟩ :
        ReportState).history.map Report.id).Nodup :=
  ⟨(report_history_ids_nodup ⟨none, [⟨"r0", "t0", "c0", .FREE, "TLP:GREEN", "b0"⟩]⟩
      ⟨"r0", "t", "c", .FREE, "TLP:GREEN", "b"⟩ "x" (by decide)).1,
   by decide⟩

/-- The rate-limit bounds of claim C10. -/
def rateLimitInv (rl : RateLimitState) : Prop :=
  0 ≤ rl.remaining ∧ rl.remaining ≤ rl.limit

/-- C10: the free-tier rate-limit state always satisfies
`0 ≤ remaining ≤ limit` — the initial state is `remaining = limit = 10`,
`decrementRateLimit` clamps at zero, `resetRateLimit` restores the full
limit, and every research-store operation preserves the bounds (the
operations other than the two rate-limit ones leave `rateLimit`
untouched). -/
theorem rate_limit_bounds (t : String) (s : ResearchState)
    (hinv : rateLimitInv s.rateLimit) :
    rateLimitInv (INITIAL_RATE_LIMIT t) ∧
    (INITIAL_RATE_LIMIT t).remaining = 10 ∧
    (INITIAL_RATE_LIMIT t).limit = 10 ∧
    rateLimitInv (ResearchStore.decrementRateLimit s).rateLimit ∧
    rateLimitInv (ResearchStore.resetRateLimit t s).rateLimit ∧
    (ResearchStore.resetRateLimit t s).rateLimit.remaining =
      (ResearchStore.resetRateLimit t s).rateLimit.limit ∧
    (∀ p m, (ResearchStore.setPhase p m s).rateLimit = s.rateLimit) ∧
    (∀ pr m, (ResearchStore.setProgress pr m s).rateLimit = s.rateLimit) ∧
    (∀ e, (ResearchStore.setError e s).rateLimit = s.rateLimit) ∧
    (∀ b, (ResearchStore.setCurrentBundle b s).rateLimit = s.rateLimit) ∧
    (ResearchStore.reset s).rateLimit = s.rateLimit := by
  obtain ⟨h0, h1⟩ := hinv
  refine ⟨⟨by norm_num [INITIAL_RATE_LIMIT], by norm_num [INITIAL_RATE_LIMIT]⟩,
    rfl, rfl, ⟨?_, ?_⟩, ⟨by norm_num [ResearchStore.resetRateLimit, INITIAL_RATE_LIMIT],
      by norm_num [ResearchStore.resetRateLimit, INITIAL_RATE_LIMIT]⟩, rfl,
    fun p m => rfl, fun pr m => rfl, fun e => rfl, fun b => rfl, rfl⟩
  · exact le_max_left 0 _
  · show max 0 (s.rateLimit.remaining - 1) ≤ s.rateLimit.limit
    omega

/-- Witness for C10 at a concrete store state. -/
theorem rate_limit_bounds_witness :
    rateLimitInv
      (ResearchStore.decrementRateLimit
        { phase := .idle, progress := 0, progressMessage := "", error := none,
          currentBundle := none,
          rateLimit := { remaining := 10, limit := 10, resetAt := "" } }).rateLimit :=
  (rate_limit_bounds ""
    { phase := .idle, progress := 0, progressMessage := "", error := none,
      currentBundle := none,
      rateLimit := { remaining := 10, limit := 10, resetAt := "" } }
    ⟨by norm_num, by norm_num⟩).2.2.2.1

/-- A research bundle used in concrete counterexamples and witnesses. -/
def demoBundle : ResearchBundle :=
  { topic := "t", tier := .FREE, searchResults := [], synthesizedContent := "",
    extractedIOCs := [] }

/-- The research-store state with the free quota already exhausted
(reachable after ten successful free-tier requests, since `canSubmit`
on the home page does not consult the counter). -/
def zeroRemainingState : ResearchState :=
  { phase := .idle, progress := 0, progressMessage := "", error := none,
    currentBundle := none,
    rateLimit := { remaining := 0, limit := 10, resetAt := "" } }

/-- Counterexample to C5 as stated: with the quota already at zero, a
successful FREE-tier research run leaves `remaining` at `0` rather than
decrementing it by exactly one (`Math.max(0, remaining - 1)` clamps). -/
theorem quota_decrement_counterexample :
    ¬((handleResearchSuccess .FREE demoBundle zeroRemainingState).rateLimit.remaining =
        zeroRemainingState.rateLimit.remaining - 1) := by
  decide

/-- C5 (amended): after a successful research run, `remaining` becomes
`max 0 (remaining - 1)` when the selected tier is FREE — a decrement by
exactly one whenever the counter was positive, a clamp at zero
otherwise — and the whole rate-limit state is unchanged for STANDARD
and DEEP. -/
theorem quota_decrement_amended (tier : ResearchTier) (bundle : ResearchBundle)
    (s : ResearchState) :
    (tier = .FREE →
      (handleResearchSuccess tier bundle s).rateLimit.remaining =
          max 0 (s.rateLimit.remaining - 1) ∧
      (handleResearchSuccess tier bundle s).rateLimit.limit = s.rateLimit.limit) ∧
    (tier = .FREE → 0 < s.rateLimit.remaining →
      (handleResearchSuccess tier bundle s).rateLimit.remaining =
        s.rateLimit.remaining - 1) ∧
    (tier ≠ .FREE → (handleResearchSuccess tier bundle s).rateLimit = s.rateLimit) := by
  cases tier <;>
    simp [handleResearchSuccess, ResearchStore.reset, ResearchStore.setPhase,
      ResearchStore.setProgress, ResearchStore.setCurrentBundle,
      ResearchStore.decrementRateLimit]
  omega

/-- Witness for C5 (amended) at a concrete state with a positive counter. -/
theorem quota_decrement_amended_witness :
    (0 : Int) <
      ({ phase := .idle, progress := 0, progressMessage := "", error := none,
         currentBundle := none,
         rateLimit := { remaining := 10, limit := 10, resetAt := "" } } :
        ResearchState).rateLimit.remaining ∧
    (handleResearchSuccess .FREE demoBundle
        { phase := .idle, progress := 0, progressMessage := "", error := none,
          currentBundle := none,
          rateLimit := { remaining := 10, limit := 10, resetAt := "" } }).rateLimit.remaining =
      ({ phase := .idle, progress := 0, progressMessage := "", error := none,
         currentBundle := none,
         rateLimit := { remaining := 10, limit := 10, resetAt := "" } } :
        ResearchState).rateLimit.remaining - 1 :=
  ⟨by norm_num,
   (quota_decrement_amended .FREE demoBundle
      { phase := .idle, progress := 0, progressMessage := "", error := none,
        currentBundle := none,
        rateLimit := { remaining := 10, limit := 10, resetAt := "" } }).2.1 rfl
     (by norm_num)⟩

/-- C6: at most one research/report-generation flow is in flight — while the
phase is neither idle, complete nor error, `canSubmit` is false and the
research handler issues no request at all; and whenever the
report-generation call appears among the issued requests, it is the
second element of the two-call trace, strictly after the research call
(the handler only reaches it once the research call has returned). -/
theorem single_inflight_request (topic : String) (tier : ResearchTier)
    (s : ResearchState) (researchSucceeds : Bool) :
    (isLoading s = true → canSubmit topic s = false) ∧
    (isLoading s = true → handleResearchCalls topic tier s researchSucceeds = []) ∧
    (ApiCallEvent.generateReport ∈ handleResearchCalls topic tier s researchSucceeds →
      handleResearchCalls topic tier s researchSucceeds =
        [.research topic.trim tier, .generateReport]) := by
  refine ⟨?_, ?_, ?_⟩
  · intro h
    simp [canSubmit, h]
  · intro h
    have hcs : canSubmit topic s = false := by simp [canSubmit, h]
    simp [handleResearchCalls, hcs]
  · intro hmem
    unfold handleResearchCalls at hmem ⊢
    by_cases hcs : canSubmit topic s = true
    · rw [if_pos hcs] at hmem ⊢
      cases researchSucceeds with
      | true => rfl
      | false => simp at hmem
    · rw [if_neg hcs] at hmem
      cases hmem

/-- Witness for C6: with a request already in flight (phase `searching`),
the handler issues no calls. -/
theorem single_inflight_request_witness :
    isLoading
        { phase := .searching, progress := 20, progressMessage := "", error := none,
          currentBundle := none,
          rateLimit := { remaining := 10, limit := 10, resetAt := "" } } = true ∧
    handleResearchCalls "Volt Typhoon" .FREE
        { phase := .searching, progress := 20, progressMessage := "", error := none,
          currentBundle := none,
          rateLimit := { remaining := 10, limit := 10, resetAt := "" } } true = [] :=
  ⟨by decide,
   (single_inflight_request "Volt Typhoon" .FREE
      { phase := .searching, progress := 20, progressMessage := "", error := none,
        currentBundle := none,
        rateLimit := { remaining := 10, limit := 10, resetAt := "" } } true).2.1
     (by decide)⟩

/-- C2: with no Perplexity credential configured, a DEEP research request
fails with the `MissingCredential` typed error and the dispatcher issues
no external provider call at all; on the client side the saved `DEEP`
default falls back to `STANDARD` and the `DEEP` tier card is not even
offered.  (The dispatcher itself is modelled from the spec, as its
backend implementation is not part of the source tree.) -/
theorem deep_tier_missing_credential (topic : String) (keys : ApiKeys)
    (searchResults : List String) (synthesized : String)
    (hkey : strTruthy keys.perplexity = false) :
    dispatch topic .DEEP keys searchResults synthesized =
      ([], .error .MissingCredential) ∧
    selectedTierInit .DEEP keys = .STANDARD ∧
    ResearchTier.DEEP ∉ shownTierCards keys := by
  refine ⟨?_, ?_, ?_⟩
  · simp [dispatch, hkey]
  · simp [selectedTierInit, hkey]
  · have hhas : hasApiKey keys .perplexity = false := by
      rw [hasApiKey_eq_strTruthy]
      exact hkey
    simp [shownTierCards, TIER_INFO_tiers, hhas]

/-- Witness for C2 with an empty key bundle. -/
theorem deep_tier_missing_credential_witness :
    strTruthy (ApiKeys.perplexity {}) = false ∧
    dispatch "Volt Typhoon" .DEEP {} [] "" = ([], .error .MissingCredential) :=
  ⟨rfl, (deep_tier_missing_credential "Volt Typhoon" {} [] "" rfl).1⟩

/-- Counterexample to C4 as stated: the PDF export call is an API call made
by the client, yet on a non-OK response whose JSON body carries a
`detail` field it throws the fixed message `"PDF export failed"` — not
the `detail` string the claim prescribes (nor the `"HTTP <status>"`
fallback). -/
theorem client_error_message_counterexample :
    callFailureMessage .exportPdf 500 (some (some "boom")) ≠ "boom" ∧
    callFailureMessage .exportPdf 500 (some (some "boom")) ≠ "HTTP 500" ∧
    callFailureMessage .exportPdf 500 (some (some "boom")) = "PDF export failed" := by
  refine ⟨by decide, by decide, rfl⟩

/-- C4 (amended): every client API call except PDF export fails on a non-OK
response with exactly the `request` error message — the JSON body's
truthy `detail` field if any, otherwise `"HTTP <status>"` — while PDF
export fails with the fixed message `"PDF export failed"`; each call
performs exactly one fetch (so a failed call is never retried) and the
error path produces no result value. -/
theorem client_error_message_amended (c : ClientCall) (status : Nat)
    (body : Option (Option String)) (hc : c ≠ .exportPdf) :
    clientCallRun c false status body =
      ([c], .error (requestErrorMessage status body)) ∧
    (∀ d, body = some (some d) → d ≠ "" → callFailureMessage c status body = d) ∧
    ((body = none ∨ body = some none) →
      callFailureMessage c status body = "HTTP " ++ toString status) ∧
    clientCallRun .exportPdf false status body =
      ([.exportPdf], .error "PDF export failed") ∧
    (∀ v : Unit, (clientCallRun c false status body).2 ≠ .ok v) ∧
    (clientCallRun c false status body).1 = [c] := by
  have hmsg : callFailureMessage c status body = requestErrorMessage status body := by
    cases c <;> first | rfl | exact absurd rfl hc
  refine ⟨?_, ?_, ?_, rfl, ?_, rfl⟩
  · simp [clientCallRun, hmsg]
  · intro d hd hne
    rw [hmsg, hd]
    simp [requestErrorMessage, hne]
  · rintro (rfl | rfl) <;> (rw [hmsg]; rfl)
  · intro v
    simp [clientCallRun]

/-- Witness for C4 (amended) on the research call with a JSON error body. -/
theorem client_error_message_amended_witness :
    ClientCall.research ≠ ClientCall.exportPdf ∧
    callFailureMessage .research 404 (some (some "not found")) = "not found" :=
  ⟨by decide,
   (client_error_message_amended .research 404 (some (some "not found"))
      (by decide)).2.1 "not found" rfl (by decide)⟩

end CyberBrief
